import Mathlib

set_option maxHeartbeats 1000000

/-!
Shallow embedding of the sidebar state controller of `chat-ui-llm`
(`src/components/sidebar.tsx`).

Each asynchronous handler of the component is modelled as the finite trace of
observable events it performs: state writes (`setXxx` calls), request issues,
log lines and toast notifications.  A state interpreter (`applyTrace`) folds a
trace over the panel state (`SidebarState`).  Promise callbacks are linearized
in the order the source attaches them (`then` handler, then `catch` handler on
rejection, then `finally`); each handler body runs to completion.  Responses of
the resource client are passed in explicitly as `Except Unit _` values (`.error`
models a rejected request or a body that fails to parse).
-/

/-- A document collection as returned by the documents list endpoint. -/
structure PdfCollection where
  collection_id : String
  file_names : List String
  document_count : Nat
  created_at : String
deriving DecidableEq, Repr

/-- A chat-transcript collection as returned by the chats list endpoint. -/
structure ChatCollection where
  collection_id : String
  file_name : String
  message_count : Nat
  platform : String
deriving DecidableEq, Repr

/-- A column descriptor of a database table detail response. -/
structure ColumnDescriptor where
  name : String
  colType : String
  nullable : Bool
  primary_key : Bool
deriving DecidableEq, Repr

/-- A database table record.  The list endpoint returns base records
(`columns` and `sample_data` absent, i.e. `none`); the per-table detail fetch
attaches them.  Sample rows are kept opaque as strings. -/
structure DbTable where
  name : String
  row_count : Option Nat
  columns : Option (List ColumnDescriptor)
  sample_data : Option (List String)
deriving DecidableEq, Repr

/-- Body of a per-table detail response: `detailData.columns` and
`detailData.sample_data` may each be absent (the source falls back to `[]`
via `|| []`). -/
structure DetailData where
  columns : Option (List ColumnDescriptor)
  sample_data : Option (List String)
deriving DecidableEq, Repr

/-- Body of the table list response: `data.tables` may be absent. -/
structure DbListData where
  tables : Option (List DbTable)
deriving DecidableEq, Repr

/-- Body of a successful PDF upload response. -/
structure UploadResponse where
  file_count : Nat
deriving DecidableEq, Repr

/-- The dynamic shape of a chat list response body, as the source's duck-typed
branch distinguishes it: a bare array, an object whose `collections` field may
or may not be an array, or a nullish / non-object value. -/
inductive ChatListData where
  | arr : List ChatCollection → ChatListData
  | obj : Option (List ChatCollection) → ChatListData
  | nullish : ChatListData
deriving DecidableEq, Repr

/-- A toast notification; `destructive` is the variant used for errors. -/
structure Toast where
  title : String
  description : String
  destructive : Bool
deriving DecidableEq, Repr

/-- The three resource kinds handled by the sidebar. -/
inductive Kind where
  | documents
  | chats
  | tables
deriving DecidableEq, Repr

/-- Observable events performed by the handlers. -/
inductive Ev where
  | setLoading : Kind → Bool → Ev
  | requestIssued : Kind → Ev
  | responseSettled : Kind → Ev
  | detailRequestIssued : String → Ev
  | deleteIssued : String → Ev
  | uploadIssued : Nat → Ev
  | toast : Toast → Ev
  | logError : Ev
  | setUploading : Bool → Ev
  | setPdfItems : List PdfCollection → Ev
  | setChatItems : List ChatCollection → Ev
  | setDbItems : List DbTable → Ev
deriving DecidableEq, Repr

/-- The mutable state of the sidebar component (the `useState` hooks). -/
structure SidebarState where
  pdfCollections : List PdfCollection
  chatCollections : List ChatCollection
  dbTables : List DbTable
  uploading : Bool
  loadingPdf : Bool
  loadingChat : Bool
  loadingDb : Bool
  expandedTables : Finset String
deriving DecidableEq

/-- Apply one event to the state.  Requests, logs and toasts leave the
component state unchanged. -/
def applyEv (s : SidebarState) : Ev → SidebarState
  | .setLoading .documents b => { s with loadingPdf := b }
  | .setLoading .chats b => { s with loadingChat := b }
  | .setLoading .tables b => { s with loadingDb := b }
  | .setUploading b => { s with uploading := b }
  | .setPdfItems xs => { s with pdfCollections := xs }
  | .setChatItems xs => { s with chatCollections := xs }
  | .setDbItems xs => { s with dbTables := xs }
  | _ => s

/-- Fold a trace of events over the state. -/
def applyTrace (s : SidebarState) (tr : List Ev) : SidebarState :=
  tr.foldl applyEv s

/-- The toasts emitted along a trace, in order. -/
def toastsOf (tr : List Ev) : List Toast :=
  tr.filterMap fun e =>
    match e with
    | .toast t => some t
    | _ => none

/-! ### Title derivation (`getCollectionTitle`, sidebar.tsx lines 56-66) -/

/-- `firstName.replace(/\.pdf$/i, "")`: drop a trailing `.pdf`, matched
case-insensitively, when present. -/
def stripPdfSuffix (s : String) : String :=
  let cs := s.data
  if 4 ≤ cs.length ∧ (cs.drop (cs.length - 4)).map Char.toLower = ['.', 'p', 'd', 'f'] then
    String.mk (cs.take (cs.length - 4))
  else s

/-- `.replace(/x/g, y)` for a single character: replace every occurrence of
`target` by `repl`. -/
def replaceAllChar (target repl : Char) (s : String) : String :=
  String.mk (s.data.map fun ch => if ch = target then repl else ch)

/-- Display title of a document collection (sidebar.tsx, `getCollectionTitle`):
first file name with the `.pdf` suffix stripped and `_` and `-` replaced by
spaces, or a fixed placeholder when there is no file name. -/
def getCollectionTitle (collection : PdfCollection) : String :=
  match collection.file_names with
  | [] => "Untitled Collection"
  | firstName :: _ =>
    replaceAllChar '-' ' ' (replaceAllChar '_' ' ' (stripPdfSuffix firstName))

/-- Modelled from the spec (section 4.5), for comparison with the source
definition: take the first entry of `file_names` if present, strip a trailing
`.pdf` suffix (case-insensitive), replace underscores and hyphens with spaces;
if `file_names` is empty, return the fixed placeholder. -/
def titleSpec (collection : PdfCollection) : String :=
  match collection.file_names with
  | [] => "Untitled Collection"
  | firstName :: _ =>
    let stripped :=
      if ['.', 'p', 'd', 'f'] <:+ firstName.data.map Char.toLower then
        firstName.data.take (firstName.data.length - 4)
      else firstName.data
    String.mk (stripped.map fun ch => if ch = '_' ∨ ch = '-' then ' ' else ch)

/-! ### Fetch coordinators (sidebar.tsx lines 86-170) -/

/-- Toast shown when the documents list fetch fails. -/
def pdfErrorToast : Toast :=
  ⟨"Error", "Failed to fetch PDF collections", true⟩

/-- Toast shown when the chats list fetch fails. -/
def chatErrorToast : Toast :=
  ⟨"Error", "Failed to fetch chat collections", true⟩

/-- Trace of `fetchCollections` (sidebar.tsx lines 86-104) given the outcome of
the documents list request.  The `catch` handler logs and toasts but does not
touch `pdfCollections`; `finally` clears the loading flag. -/
def fetchCollectionsTrace (resp : Except Unit (List PdfCollection)) : List Ev :=
  [.setLoading .documents true, .requestIssued .documents, .responseSettled .documents] ++
    (match resp with
     | .ok data => [.setPdfItems data]
     | .error _ => [.logError, .toast pdfErrorToast]) ++
    [.setLoading .documents false]

/-- Shape normalization of the chat list response (sidebar.tsx lines 112-119):
a bare array is taken as is, an object with an array `collections` field
yields that field, anything else yields the empty list. -/
def normalizeChatList : ChatListData → List ChatCollection
  | .arr xs => xs
  | .obj (some xs) => xs
  | .obj none => []
  | .nullish => []

/-- Trace of `fetchChatCollections` (sidebar.tsx lines 106-133).  On rejection
the `catch` handler logs, resets the items to `[]` and toasts; `finally`
clears the loading flag. -/
def fetchChatCollectionsTrace (resp : Except Unit ChatListData) : List Ev :=
  [.setLoading .chats true, .requestIssued .chats, .responseSettled .chats] ++
    (match resp with
     | .ok data => [.setChatItems (normalizeChatList data)]
     | .error _ => [.logError, .setChatItems [], .toast chatErrorToast]) ++
    [.setLoading .chats false]

/-- Merge a per-table detail outcome onto a base table record (sidebar.tsx
lines 144-156): on success attach `columns` and `sample_data` (falling back to
`[]` when the detail body lacks them); on failure return the base record
unchanged. -/
def mergeDetail (table : DbTable) : Except Unit DetailData → DbTable
  | .ok d =>
    { table with columns := some (d.columns.getD []), sample_data := some (d.sample_data.getD []) }
  | .error _ => table

/-- Trace of `fetchDbTables` (sidebar.tsx lines 135-170) given the outcome of
the list request and a map from table name to its detail outcome.  A non-empty
table list fans out one detail request per table and writes the merged batch
once; an absent or empty list writes `[]`; a rejected list request is only
logged.  `finally` clears the loading flag in all cases. -/
def fetchDbTablesTrace (resp : Except Unit DbListData)
    (details : String → Except Unit DetailData) : List Ev :=
  [.setLoading .tables true, .requestIssued .tables, .responseSettled .tables] ++
    (match resp with
     | .ok data =>
       match data.tables with
       | some ts =>
         if 0 < ts.length then
           (ts.map fun t => Ev.detailRequestIssued t.name) ++
             [.setDbItems (ts.map fun t => mergeDetail t (details t.name))]
         else [.setDbItems []]
       | none => [.setDbItems []]
     | .error _ => [.logError]) ++
    [.setLoading .tables false]

/-! ### Mutation coordinators (sidebar.tsx lines 186-282) -/

/-- Toast shown when the PDF upload request fails. -/
def uploadFailToast : Toast :=
  ⟨"Upload Failed", "Failed to upload PDF files", true⟩

/-- Toast shown on PDF upload success; reports the server-returned count. -/
def uploadSuccessToast (n : Nat) : Toast :=
  ⟨"Upload Successful", toString n ++ " PDF(s) uploaded successfully", false⟩

/-- Trace of `handlePdfUpload` (sidebar.tsx lines 186-214).  `files` is the
selected file list (`none` models a `null` `FileList`); files are kept as
their names.  An empty or absent selection returns before doing anything.
Otherwise all files go out as one request; success toasts the server count and
re-runs `fetchCollections`; failure logs and toasts; `finally` clears
`uploading`. -/
def handlePdfUploadTrace (files : Option (List String))
    (uploadResp : Except Unit UploadResponse)
    (reloadResp : Except Unit (List PdfCollection)) : List Ev :=
  match files with
  | none => []
  | some fs =>
    if fs.length = 0 then []
    else
      [.setUploading true, .uploadIssued fs.length] ++
        (match uploadResp with
         | .ok d => [.toast (uploadSuccessToast d.file_count)] ++ fetchCollectionsTrace reloadResp
         | .error _ => [.logError, .toast uploadFailToast]) ++
        [.setUploading false]

/-- Toast shown when a document collection delete succeeds. -/
def deleteSuccessToast : Toast :=
  ⟨"Collection Deleted", "Collection deleted successfully", false⟩

/-- Toast shown when a document collection delete fails. -/
def deleteFailToast : Toast :=
  ⟨"Delete Failed", "Failed to delete collection", true⟩

/-- Trace of `deleteCollection` (sidebar.tsx lines 246-263): on success toast
and re-run `fetchCollections`; on failure log and toast only. -/
def deleteCollectionTrace (collectionId : String) (delResp : Except Unit Unit)
    (reloadResp : Except Unit (List PdfCollection)) : List Ev :=
  Ev.deleteIssued collectionId ::
    match delResp with
    | .ok _ => .toast deleteSuccessToast :: fetchCollectionsTrace reloadResp
    | .error _ => [.logError, .toast deleteFailToast]

/-- Toast shown when a chat collection delete succeeds. -/
def chatDeleteSuccessToast : Toast :=
  ⟨"Chat Collection Deleted", "Chat collection deleted successfully", false⟩

/-- Toast shown when a chat collection delete fails. -/
def chatDeleteFailToast : Toast :=
  ⟨"Delete Failed", "Failed to delete chat collection", true⟩

/-- Trace of `deleteChatCollection` (sidebar.tsx lines 265-282): on success
toast and re-run `fetchChatCollections`; on failure log and toast only. -/
def deleteChatCollectionTrace (collectionId : String) (delResp : Except Unit Unit)
    (reloadResp : Except Unit ChatListData) : List Ev :=
  Ev.deleteIssued collectionId ::
    match delResp with
    | .ok _ => .toast chatDeleteSuccessToast :: fetchChatCollectionsTrace reloadResp
    | .error _ => [.logError, .toast chatDeleteFailToast]

/-! ### Expansion tracker (sidebar.tsx lines 284-294) -/

/-- `toggleTableExpansion`: membership toggle of a table name in the expanded
set. -/
def toggleTableExpansion (prev : Finset String) (tableName : String) : Finset String :=
  if tableName ∈ prev then prev.erase tableName else insert tableName prev

/-- The state update performed by `toggleTableExpansion`: only the
`expandedTables` field changes. -/
def toggleTableExpansionState (s : SidebarState) (tableName : String) : SidebarState :=
  { s with expandedTables := toggleTableExpansion s.expandedTables tableName }

/-! ### Shared lemmas and concrete fixtures -/

/-- Folding a concatenated trace folds the pieces in order. -/
theorem applyTrace_append (s : SidebarState) (t1 t2 : List Ev) :
    applyTrace s (t1 ++ t2) = applyTrace (applyTrace s t1) t2 :=
  List.foldl_append ..

/-- A concrete document collection used in concrete runs. -/
def c0 : PdfCollection :=
  ⟨"col-1", ["a.pdf"], 1, "2024-01-01"⟩

/-- A concrete panel state whose documents store is non-empty. -/
def s0 : SidebarState :=
  ⟨[c0], [], [], false, false, false, false, ∅⟩

/-! ### Claims about the fetch coordinators -/

/-- Claim C1, counterexample: the claim says a failing documents list fetch
resets the documents store items to the empty sequence; running the failure
trace from a state holding one collection leaves that collection in place, so
the items are not empty. -/
theorem fetchCollections_failure_reset_counterexample :
    ¬((applyTrace s0 (fetchCollectionsTrace (.error ()))).pdfCollections = []) := by
  decide

/-- Claim C1 (amended): when the documents list fetch fails, a user-visible
(destructive) error notification is emitted and the loading flag is cleared,
but the documents store items are left untouched: the whole state change is
exactly clearing the loading flag. -/
theorem fetchCollections_failure_behavior :
    ∀ s : SidebarState,
      applyTrace s (fetchCollectionsTrace (.error ())) = { s with loadingPdf := false } ∧
      toastsOf (fetchCollectionsTrace (.error ())) = [pdfErrorToast] ∧
      pdfErrorToast.destructive = true := by
  intro s
  exact ⟨rfl, rfl, rfl⟩

/-- Claim C2: the chat list fetch accepts both a bare array and an envelope
with an array `collections` field, storing that sequence verbatim; any other
shape stores the empty sequence; no successful response, whatever its shape,
emits a toast. -/
theorem fetchChatCollections_normalization :
    ∀ s : SidebarState,
      (∀ xs, (applyTrace s (fetchChatCollectionsTrace (.ok (.arr xs)))).chatCollections = xs) ∧
      (∀ xs,
        (applyTrace s (fetchChatCollectionsTrace (.ok (.obj (some xs))))).chatCollections = xs) ∧
      (applyTrace s (fetchChatCollectionsTrace (.ok (.obj none)))).chatCollections = [] ∧
      (applyTrace s (fetchChatCollectionsTrace (.ok .nullish))).chatCollections = [] ∧
      (∀ d, toastsOf (fetchChatCollectionsTrace (.ok d)) = []) := by
  intro s
  exact ⟨fun xs => rfl, fun xs => rfl, rfl, rfl, fun d => rfl⟩

/-- Claim C10: a failing database list fetch leaves the tables store exactly
as it was; the only state change of the whole run is clearing the database
loading flag. -/
theorem fetchDbTables_failure_preserves_items :
    ∀ (s : SidebarState) (details : String → Except Unit DetailData),
      applyTrace s (fetchDbTablesTrace (.error ()) details) = { s with loadingDb := false } := by
  intro s details
  rfl

/-- Claim C8: a failing database list fetch emits no toast and only logs,
while failing documents and chats list fetches each emit a destructive
(user-visible error) toast. -/
theorem fetch_error_notification_asymmetry :
    (∀ details : String → Except Unit DetailData,
      toastsOf (fetchDbTablesTrace (.error ()) details) = [] ∧
        Ev.logError ∈ fetchDbTablesTrace (.error ()) details) ∧
    (toastsOf (fetchCollectionsTrace (.error ())) = [pdfErrorToast] ∧
      pdfErrorToast.destructive = true) ∧
    (toastsOf (fetchChatCollectionsTrace (.error ())) = [chatErrorToast] ∧
      chatErrorToast.destructive = true) := by
  refine ⟨fun details => ⟨rfl, ?_⟩, ⟨rfl, rfl⟩, ⟨rfl, rfl⟩⟩
  simp [fetchDbTablesTrace]

/-! ### Claims about the mutation coordinators -/

/-- Claim C5: on delete success a success toast is shown first and the reload
runs as a suffix of the trace, after which the store holds exactly what the
reload returned (no client-side filtering); on delete failure a failure toast
is shown and the state is completely untouched.  Both the document and the
chat variants are covered. -/
theorem delete_reload_semantics :
    ∀ (s : SidebarState) (cid : String),
      (∀ xs,
        (applyTrace s (deleteCollectionTrace cid (.ok ()) (.ok xs))).pdfCollections = xs) ∧
      (∀ r, (toastsOf (deleteCollectionTrace cid (.ok ()) r)).head? = some deleteSuccessToast) ∧
      (∀ r, ∃ pre, deleteCollectionTrace cid (.ok ()) r = pre ++ fetchCollectionsTrace r) ∧
      (∀ r, applyTrace s (deleteCollectionTrace cid (.error ()) r) = s) ∧
      (∀ r, deleteFailToast ∈ toastsOf (deleteCollectionTrace cid (.error ()) r)) ∧
      (∀ d,
        (applyTrace s (deleteChatCollectionTrace cid (.ok ()) (.ok d))).chatCollections
          = normalizeChatList d) ∧
      (∀ r,
        (toastsOf (deleteChatCollectionTrace cid (.ok ()) r)).head?
          = some chatDeleteSuccessToast) ∧
      (∀ r, ∃ pre, deleteChatCollectionTrace cid (.ok ()) r = pre ++ fetchChatCollectionsTrace r) ∧
      (∀ r, applyTrace s (deleteChatCollectionTrace cid (.error ()) r) = s) ∧
      (∀ r, chatDeleteFailToast ∈ toastsOf (deleteChatCollectionTrace cid (.error ()) r)) := by
  intro s cid
  refine ⟨fun xs => rfl, fun r => rfl,
    fun r => ⟨[.deleteIssued cid, .toast deleteSuccessToast], rfl⟩,
    fun r => rfl, fun r => ?_, fun d => rfl, fun r => rfl,
    fun r => ⟨[.deleteIssued cid, .toast chatDeleteSuccessToast], rfl⟩,
    fun r => rfl, fun r => ?_⟩
  · simp [deleteCollectionTrace, toastsOf]
  · simp [deleteChatCollectionTrace, toastsOf]

/-! ### Claims about the expansion tracker -/

/-- Claim C6: toggling a table name twice restores the expanded set, toggling
a name not in the set inserts it, membership of every other name is unchanged,
and the toggle changes nothing in the state apart from the expanded set (in
particular no table's `columns` and no loading flag). -/
theorem toggleTableExpansion_props :
    ∀ (S : Finset String) (t : String) (s : SidebarState),
      toggleTableExpansion (toggleTableExpansion S t) t = S ∧
      (t ∉ S → toggleTableExpansion S t = insert t S) ∧
      (∀ u, u ≠ t → ((u ∈ toggleTableExpansion S t) ↔ u ∈ S)) ∧
      (toggleTableExpansionState s t).pdfCollections = s.pdfCollections ∧
      (toggleTableExpansionState s t).chatCollections = s.chatCollections ∧
      (toggleTableExpansionState s t).dbTables = s.dbTables ∧
      (toggleTableExpansionState s t).uploading = s.uploading ∧
      (toggleTableExpansionState s t).loadingPdf = s.loadingPdf ∧
      (toggleTableExpansionState s t).loadingChat = s.loadingChat ∧
      (toggleTableExpansionState s t).loadingDb = s.loadingDb := by
  intro S t s
  refine ⟨?_, ?_, ?_, rfl, rfl, rfl, rfl, rfl, rfl, rfl⟩
  · by_cases h : t ∈ S
    · simp only [toggleTableExpansion]
      rw [if_pos h, if_neg (by simp), Finset.insert_erase h]
    · simp only [toggleTableExpansion]
      rw [if_neg h, if_pos (Finset.mem_insert_self t S), Finset.erase_insert h]
  · intro h
    rw [toggleTableExpansion, if_neg h]
  · intro u hu
    by_cases h : t ∈ S
    · simp [toggleTableExpansion, h, hu]
    · simp [toggleTableExpansion, h, hu]

/-- Claim C6, witness: the toggle laws evaluated at the empty expanded set, the
table name "users" and the other name "other". -/
theorem toggleTableExpansion_props_witness :
    toggleTableExpansion (toggleTableExpansion ∅ "users") "users" = ∅ ∧
    toggleTableExpansion ∅ "users" = insert "users" ∅ ∧
    (("other" ∈ toggleTableExpansion ∅ "users") ↔ "other" ∈ (∅ : Finset String)) := by
  obtain ⟨h1, h2, h3, _⟩ := toggleTableExpansion_props ∅ "users" s0
  exact ⟨h1, h2 (by decide), h3 "other" (by decide)⟩

/-! ### Claim C9: loading-flag bracketing -/

/-- Whether an event is a write to the loading flag of kind `k`. -/
def isLoadingEv (k : Kind) : Ev → Bool
  | .setLoading k2 _ => decide (k2 = k)
  | _ => false

/-- A trace brackets one request of kind `k`: it starts by setting the loading
flag true, then issues the request, the response settles, and the one and only
other write to that flag is the final clearing. -/
def bracketed (k : Kind) (tr : List Ev) : Prop :=
  ∃ mid : List Ev,
    tr = Ev.setLoading k true :: Ev.requestIssued k :: Ev.responseSettled k ::
        (mid ++ [Ev.setLoading k false]) ∧
      mid.all (fun e => !(isLoadingEv k e)) = true

/-- Claim C9: every run of each of the three list fetches, on both the success
and the failure path, sets its kind's loading flag true before issuing the
request and clears it once after the response settles, with no other write to
that flag in between. -/
theorem fetch_loading_bracket :
    (∀ resp, bracketed .documents (fetchCollectionsTrace resp)) ∧
    (∀ resp, bracketed .chats (fetchChatCollectionsTrace resp)) ∧
    (∀ resp details, bracketed .tables (fetchDbTablesTrace resp details)) := by
  refine ⟨fun resp => ?_, fun resp => ?_, fun resp details => ?_⟩
  · cases resp with
    | ok data => exact ⟨[.setPdfItems data], rfl, rfl⟩
    | error e => exact ⟨[.logError, .toast pdfErrorToast], rfl, rfl⟩
  · cases resp with
    | ok data => exact ⟨[.setChatItems (normalizeChatList data)], rfl, rfl⟩
    | error e => exact ⟨[.logError, .setChatItems [], .toast chatErrorToast], rfl, rfl⟩
  · cases resp with
    | error e => exact ⟨[.logError], rfl, rfl⟩
    | ok data =>
      obtain ⟨tables⟩ := data
      cases tables with
      | none => exact ⟨[.setDbItems []], rfl, rfl⟩
      | some ts =>
        by_cases hl : 0 < ts.length
        · refine ⟨(ts.map fun t => Ev.detailRequestIssued t.name) ++
              [.setDbItems (ts.map fun t => mergeDetail t (details t.name))], ?_, ?_⟩
          · simp [fetchDbTablesTrace, hl]
          · simp [List.all_eq_true, isLoadingEv]
        · exact ⟨[.setDbItems []], by simp [fetchDbTablesTrace, hl], rfl⟩

/-! ### Claim C4: per-table detail failure isolation -/

/-- Detail request events change no state. -/
theorem applyTrace_detailRequests (s : SidebarState) (ts : List DbTable) :
    applyTrace s (ts.map fun t => Ev.detailRequestIssued t.name) = s := by
  induction ts generalizing s with
  | nil => rfl
  | cons t rest ih => exact ih s

/-- Detail request events emit no toast. -/
theorem toastsOf_detailRequests (ts : List DbTable) :
    toastsOf (ts.map fun t => Ev.detailRequestIssued t.name) = [] := by
  induction ts with
  | nil => rfl
  | cons t rest ih => exact ih

/-- Whether an event is a write of the tables store. -/
def isSetDbItems : Ev → Bool
  | .setDbItems _ => true
  | _ => false

/-- Claim C4: a non-empty table list fans out per-table detail fetches; a
failing detail fetch leaves that table's base record unchanged while the batch
still produces one merged record per listed table, no toast is emitted, and
the tables store is written exactly once. -/
theorem fetchDbTables_detail_failure_isolation :
    ∀ (s : SidebarState) (ts : List DbTable) (details : String → Except Unit DetailData),
      ts ≠ [] →
      (applyTrace s (fetchDbTablesTrace (.ok ⟨some ts⟩) details)).dbTables
          = ts.map (fun t => mergeDetail t (details t.name)) ∧
      (applyTrace s (fetchDbTablesTrace (.ok ⟨some ts⟩) details)).dbTables.length = ts.length ∧
      (∀ t : DbTable, mergeDetail t (.error ()) = t) ∧
      toastsOf (fetchDbTablesTrace (.ok ⟨some ts⟩) details) = [] ∧
      (fetchDbTablesTrace (.ok ⟨some ts⟩) details).countP isSetDbItems = 1 := by
  intro s ts details hne
  have hl : 0 < ts.length := List.length_pos.mpr hne
  have htr : fetchDbTablesTrace (.ok ⟨some ts⟩) details =
      [.setLoading .tables true, .requestIssued .tables, .responseSettled .tables] ++
        ((ts.map fun t => Ev.detailRequestIssued t.name) ++
          [.setDbItems (ts.map fun t => mergeDetail t (details t.name))]) ++
        [.setLoading .tables false] := by
    simp [fetchDbTablesTrace, hl]
  have h1 : (applyTrace s (fetchDbTablesTrace (.ok ⟨some ts⟩) details)).dbTables
      = ts.map (fun t => mergeDetail t (details t.name)) := by
    rw [htr, applyTrace_append, applyTrace_append]
    show (applyTrace (applyTrace _ ((ts.map fun t => Ev.detailRequestIssued t.name) ++ _))
        [.setLoading .tables false]).dbTables = _
    rw [applyTrace_append, applyTrace_detailRequests]
    rfl
  refine ⟨h1, by rw [h1, List.length_map], fun t => rfl, ?_, ?_⟩
  · rw [htr]
    simp only [toastsOf, List.filterMap_append]
    have h0 := toastsOf_detailRequests ts
    simp only [toastsOf] at h0
    rw [h0]
    rfl
  · rw [htr]
    simp [List.countP_append, List.countP_map, isSetDbItems, List.countP_cons, Function.comp]

/-- A base table record with only a name, as the list endpoint returns it. -/
def baseTable (n : String) : DbTable :=
  ⟨n, none, none, none⟩

/-- A concrete five-table batch. -/
def fiveTables : List DbTable :=
  [baseTable "users", baseTable "orders", baseTable "items", baseTable "carts",
    baseTable "logs"]

/-- A detail-outcome map under which only the table "orders" fails. -/
def detailsOrdersFail : String → Except Unit DetailData :=
  fun n =>
    if n = "orders" then .error ()
    else .ok ⟨some [⟨"id", "INTEGER", false, true⟩], some []⟩

/-- Claim C4, witness: in the five-table batch where only "orders" fails, the
final store still has five records, equal to the per-table merge, the "orders"
record is its base record, and no toast is emitted. -/
theorem fetchDbTables_detail_failure_isolation_witness :
    fiveTables ≠ [] ∧
    (applyTrace s0 (fetchDbTablesTrace (.ok ⟨some fiveTables⟩) detailsOrdersFail)).dbTables.length
        = 5 ∧
    (applyTrace s0 (fetchDbTablesTrace (.ok ⟨some fiveTables⟩) detailsOrdersFail)).dbTables
        = fiveTables.map (fun t => mergeDetail t (detailsOrdersFail t.name)) ∧
    mergeDetail (baseTable "orders") (.error ()) = baseTable "orders" ∧
    toastsOf (fetchDbTablesTrace (.ok ⟨some fiveTables⟩) detailsOrdersFail) = [] := by
  have h := fetchDbTables_detail_failure_isolation s0 fiveTables detailsOrdersFail (by decide)
  exact ⟨by decide, h.2.1.trans (by decide), h.1, h.2.2.1 (baseTable "orders"), h.2.2.2.1⟩

/-! ### Claim C7: PDF upload -/

/-- Whether an event is the issue of the upload request. -/
def isUploadIssued : Ev → Bool
  | .uploadIssued _ => true
  | _ => false

/-- Claim C7: an absent or empty file selection is a complete no-op; a
non-empty selection brackets one upload request with the `uploading` flag (set
first, cleared last on both paths), the request carries all selected files,
success toasts the server-reported count and re-runs the documents fetch, and
failure toasts once without issuing any further request. -/
theorem handlePdfUpload_props :
    ∀ (s : SidebarState) (u : Except Unit UploadResponse)
      (r : Except Unit (List PdfCollection)),
      (handlePdfUploadTrace none u r = [] ∧ applyTrace s (handlePdfUploadTrace none u r) = s) ∧
      (handlePdfUploadTrace (some []) u r = [] ∧
        applyTrace s (handlePdfUploadTrace (some []) u r) = s) ∧
      (∀ fs : List String, fs ≠ [] →
        (handlePdfUploadTrace (some fs) u r).head? = some (Ev.setUploading true) ∧
        (handlePdfUploadTrace (some fs) u r).getLast? = some (Ev.setUploading false) ∧
        (handlePdfUploadTrace (some fs) u r).countP isUploadIssued = 1 ∧
        Ev.uploadIssued fs.length ∈ handlePdfUploadTrace (some fs) u r ∧
        (applyTrace s (handlePdfUploadTrace (some fs) u r)).uploading = false ∧
        (∀ d, u = .ok d →
          uploadSuccessToast d.file_count ∈ toastsOf (handlePdfUploadTrace (some fs) u r) ∧
          ∃ pre post,
            handlePdfUploadTrace (some fs) u r = pre ++ fetchCollectionsTrace r ++ post) ∧
        (u = .error () →
          toastsOf (handlePdfUploadTrace (some fs) u r) = [uploadFailToast] ∧
          ∀ k, Ev.requestIssued k ∉ handlePdfUploadTrace (some fs) u r)) := by
  intro s u r
  refine ⟨⟨rfl, rfl⟩, ⟨rfl, rfl⟩, fun fs hfs => ?_⟩
  have hlen : ¬(fs.length = 0) := fun h => hfs (List.length_eq_zero.mp h)
  have htr : handlePdfUploadTrace (some fs) u r =
      [.setUploading true, .uploadIssued fs.length] ++
        (match u with
         | .ok d => [.toast (uploadSuccessToast d.file_count)] ++ fetchCollectionsTrace r
         | .error _ => [.logError, .toast uploadFailToast]) ++
        [.setUploading false] := by
    simp [handlePdfUploadTrace, hlen]
  cases u with
  | ok d =>
    rw [htr]
    cases r with
    | ok xs =>
      refine ⟨rfl, rfl, rfl, by simp, rfl, ?_, ?_⟩
      · intro d2 hd2
        cases hd2
        exact ⟨by simp [toastsOf], [.setUploading true, .uploadIssued fs.length,
          .toast (uploadSuccessToast d.file_count)], [.setUploading false], rfl⟩
      · intro h
        cases h
    | error e =>
      refine ⟨rfl, rfl, rfl, by simp, rfl, ?_, ?_⟩
      · intro d2 hd2
        cases hd2
        exact ⟨by simp [toastsOf], [.setUploading true, .uploadIssued fs.length,
          .toast (uploadSuccessToast d.file_count)], [.setUploading false], rfl⟩
      · intro h
        cases h
  | error e =>
    rw [htr]
    refine ⟨rfl, rfl, rfl, by simp, rfl, ?_, ?_⟩
    · intro d2 hd2
      cases hd2
    · intro h
      refine ⟨rfl, fun k => ?_⟩
      simp

/-- Claim C7, witness: uploading the one-file selection `["a.pdf"]` with a
server response accepting two files brackets the `uploading` flag and toasts
the server count 2. -/
theorem handlePdfUpload_props_witness :
    (["a.pdf"] : List String) ≠ [] ∧
    (handlePdfUploadTrace (some ["a.pdf"]) (.ok ⟨2⟩) (.ok [])).head?
        = some (Ev.setUploading true) ∧
    (handlePdfUploadTrace (some ["a.pdf"]) (.ok ⟨2⟩) (.ok [])).getLast?
        = some (Ev.setUploading false) ∧
    (applyTrace s0 (handlePdfUploadTrace (some ["a.pdf"]) (.ok ⟨2⟩) (.ok []))).uploading
        = false ∧
    uploadSuccessToast 2 ∈ toastsOf (handlePdfUploadTrace (some ["a.pdf"]) (.ok ⟨2⟩) (.ok [])) := by
  have h := (handlePdfUpload_props s0 (.ok ⟨2⟩) (.ok [])).2.2 ["a.pdf"] (by decide)
  exact ⟨by decide, h.1, h.2.1, h.2.2.2.2.1, (h.2.2.2.2.2.1 ⟨2⟩ rfl).1⟩

/-! ### Claim C3: title derivation -/

/-- Dropping commutes with mapping. -/
theorem map_drop_comm (f : Char → Char) (n : Nat) (l : List Char) :
    (l.map f).drop n = (l.drop n).map f := by
  induction n generalizing l with
  | zero => rfl
  | succ n ih =>
    cases l with
    | nil => rfl
    | cons a l => exact ih l

/-- The case-insensitive `.pdf` suffix test of the spec rendering agrees with
the length-and-drop test of the source rendering. -/
theorem pdf_suffix_cond (cs : List Char) :
    (['.', 'p', 'd', 'f'] <:+ cs.map Char.toLower) ↔
      (4 ≤ cs.length ∧ (cs.drop (cs.length - 4)).map Char.toLower = ['.', 'p', 'd', 'f']) := by
  constructor
  · intro h
    obtain ⟨t, ht⟩ := h
    have hlen : cs.length = t.length + 4 := by
      have h2 := congrArg List.length ht
      simpa using h2.symm
    have h4 : 4 ≤ cs.length := by omega
    refine ⟨h4, ?_⟩
    have hdrop : (cs.map Char.toLower).drop (cs.length - 4) = ['.', 'p', 'd', 'f'] := by
      have ht4 : cs.length - 4 = t.length := by omega
      rw [ht4, ← ht, List.drop_left]
    rw [map_drop_comm] at hdrop
    exact hdrop
  · rintro ⟨h4, hdrop⟩
    refine ⟨(cs.map Char.toLower).take (cs.length - 4), ?_⟩
    have h2 : (cs.map Char.toLower).drop (cs.length - 4) = ['.', 'p', 'd', 'f'] := by
      rw [map_drop_comm]
      exact hdrop
    rw [← h2, List.take_append_drop]

/-- Replacing `_` and then `-` by a space is the single merged replacement. -/
theorem replace_char_merge (ch : Char) :
    (if (if ch = '_' then ' ' else ch) = '-' then ' ' else (if ch = '_' then ' ' else ch))
      = if ch = '_' ∨ ch = '-' then ' ' else ch := by
  by_cases h1 : ch = '_'
  · subst h1
    decide
  · by_cases h2 : ch = '-'
    · subst h2
      decide
    · rw [if_neg h1, if_neg h2, if_neg (fun hc => hc.elim h1 h2)]

/-- The two chained character replacements of the source equal the merged
replacement of the spec rendering. -/
theorem replace_pair (s : String) :
    replaceAllChar '-' ' ' (replaceAllChar '_' ' ' s) =
      String.mk (s.data.map fun ch => if ch = '_' ∨ ch = '-' then ' ' else ch) := by
  show String.mk (((s.data.map fun ch => if ch = '_' then ' ' else ch).map
      fun ch => if ch = '-' then ' ' else ch)) = _
  rw [List.map_map]
  refine congrArg String.mk (List.map_congr_left fun ch _ => ?_)
  exact replace_char_merge ch

/-- Claim C3: the source title derivation agrees with the spec description on
every document collection; the spec example maps as stated; the placeholder is
returned for every collection with empty `file_names`, whatever its other
fields. -/
theorem getCollectionTitle_spec :
    (∀ c, getCollectionTitle c = titleSpec c) ∧
    getCollectionTitle ⟨"id1", ["Annual_Report-2023.PDF"], 1, "2024-01-01"⟩
        = "Annual Report 2023" ∧
    (∀ cid dc ca, getCollectionTitle ⟨cid, [], dc, ca⟩ = "Untitled Collection") := by
  refine ⟨fun c => ?_, by decide, fun cid dc ca => rfl⟩
  rw [getCollectionTitle, titleSpec]
  cases c.file_names with
  | nil => rfl
  | cons firstName rest =>
    show replaceAllChar '-' ' ' (replaceAllChar '_' ' ' (stripPdfSuffix firstName)) = _
    by_cases h : ['.', 'p', 'd', 'f'] <:+ firstName.data.map Char.toLower
    · have hcond := (pdf_suffix_cond firstName.data).mp h
      rw [show stripPdfSuffix firstName
            = String.mk (firstName.data.take (firstName.data.length - 4)) from by
          simp only [stripPdfSuffix]
          rw [if_pos hcond]]
      rw [replace_pair]
      simp only [if_pos h]
    · have hcond : ¬(4 ≤ firstName.data.length ∧
          (firstName.data.drop (firstName.data.length - 4)).map Char.toLower
            = ['.', 'p', 'd', 'f']) :=
        fun hc => h ((pdf_suffix_cond firstName.data).mpr hc)
      rw [show stripPdfSuffix firstName = firstName from by
          simp only [stripPdfSuffix]
          rw [if_neg hcond]]
      rw [replace_pair]
      simp only [if_neg h]
